import Mathlib

/-!
Verification development for the bronze/silver/gold data-refinement pipeline
of this repository.  The Python sources embedded here are
`src/code/data_loader_raw.py` (raw cache), `src/code/data_loader_bronze.py`
(landing loader), `src/code/data_loader_silver.py` (relational resolver) and
`src/code/data_loader_gold.py` (feature flattener).  Scalar cell values are
modelled by an inductive `Value` type; Python floats and pandas numerics are
modelled as rationals; SQLite tables are association-list rows.  Logging and
file input/output are outside the model; the success of a SQL bulk insert
that can fail for reasons invisible to the value model (driver-level type
mismatches) is an explicit boolean oracle parameter.
-/

namespace UWV

/-- Scalar cell values: JSON/SQLite scalars plus the pandas timestamp produced
by the gold transform.  A Python float is modelled exactly as the decimal it
was parsed from: an integer numerator over a power-of-ten denominator (kept
unnormalized so the kernel can evaluate every operation); its mathematical
value is `floatValQ`. -/
inductive Value where
  | int (n : Int)
  | float (num : Int) (den : Nat)
  | str (s : String)
  | date (y m d : Int)
  | null
deriving DecidableEq

/-- Mathematical value of a modelled float. -/
def floatValQ (num : Int) (den : Nat) : ℚ := (num : ℚ) / (den : ℚ)

/-- A record / table row: an insertion-ordered mapping from column names to
values, as a Python dict holds a JSON object. -/
abbrev Row := List (String × Value)

/-- Dictionary lookup: first entry with the given key. -/
def rowGet (r : Row) (k : String) : Option Value :=
  (r.find? (fun kv => decide (kv.1 = k))).map Prod.snd

/-- Python dict assignment `d[k] = v`: overwrite in place if the key exists,
otherwise append (Python dicts preserve insertion order). -/
def rowSet (r : Row) (k : String) (v : Value) : Row :=
  if (rowGet r k).isSome then
    r.map (fun kv => if kv.1 = k then (k, v) else kv)
  else r ++ [(k, v)]

/-- SQL column types used by the loaders (sqlalchemy Integer/Float/String). -/
inductive SqlType where
  | integer
  | float
  | string
deriving DecidableEq

/-- A materialized SQLite table: name, typed column list, rows. -/
structure DBTable where
  name : String
  cols : List (String × SqlType)
  rows : List Row
deriving DecidableEq

/-- A SQLite database file: the list of its tables. -/
abbrev Database := List DBTable

/-- Look a table up by name. -/
def dbFind (db : Database) (n : String) : Option DBTable :=
  db.find? (fun t => decide (t.name = n))

/-- Drop-if-exists then create: the destructive-replace step shared by the
bronze and silver materializations (`table.drop(checkfirst=True)` followed by
`table.create(engine)`). -/
def replaceTable (db : Database) (n : String) (t : DBTable) : Database :=
  db.filter (fun x => decide (x.name ≠ n)) ++ [t]

/- ### Python string semantics

The loaders lean on Python `str` methods (`strip`, `replace`, `split`,
`isdigit`) and the `int`/`float` constructors.  They are modelled here over
character lists with structural recursion so that the kernel can evaluate
them on concrete inputs. -/

/-- Does the first list start with the second? -/
def listStartsWith : List Char → List Char → Bool
  | _, [] => true
  | [], _ :: _ => false
  | c :: cs, p :: ps => decide (c = p) && listStartsWith cs ps

/-- Fuel-indexed splitter on a non-overlapping pattern, scanning left to
right exactly as Python `str.split(pat)` does.  Fuel is instantiated with the
input length, which always suffices since each step consumes a character. -/
def splitOnFuel (pat : List Char) : Nat → List Char → List (List Char)
  | _, [] => [[]]
  | 0, l => [l]
  | Nat.succ fuel, c :: cs =>
    if pat ≠ [] ∧ listStartsWith (c :: cs) pat then
      [] :: splitOnFuel pat fuel (cs.drop (pat.length - 1))
    else
      match splitOnFuel pat fuel cs with
      | [] => [[c]]
      | g :: gs => (c :: g) :: gs

/-- Python `s.split(pat)` for a non-empty pattern. -/
def pySplit (s pat : String) : List String :=
  (splitOnFuel pat.toList s.toList.length s.toList).map (fun g => String.mk g)

/-- Join chunks with a separator (used to model `str.replace`). -/
def joinWithCh (sep : List Char) : List (List Char) → List Char
  | [] => []
  | [g] => g
  | g :: gs => g ++ sep ++ joinWithCh sep gs

/-- Python `s.replace(pat, repl)` for a non-empty pattern. -/
def pyReplace (s pat repl : String) : String :=
  String.mk (joinWithCh repl.toList (splitOnFuel pat.toList s.toList.length s.toList))

/-- Python substring containment `pat in s` (used for the pandas
`str.contains` test on a literal pattern). -/
def pyContains (s pat : String) : Bool :=
  decide (2 ≤ (pySplit s pat).length)

/-- Python `s.startswith(pre)`. -/
def strStartsWith (p s : String) : Bool := listStartsWith s.toList p.toList

/-- Python `s.strip()`: remove leading and trailing whitespace. -/
def pyStrip (s : String) : String :=
  String.mk (((s.toList.dropWhile Char.isWhitespace).reverse.dropWhile
    Char.isWhitespace).reverse)

/-- Numeric value of a digit list (only meaningful when all are digits). -/
def natOfDigits (cs : List Char) : Nat :=
  cs.foldl (fun a c => a * 10 + (c.toNat - 48)) 0

/-- Parse a non-empty all-digit list. -/
def digitsToNat (cs : List Char) : Option Nat :=
  if cs ≠ [] ∧ cs.all Char.isDigit then some (natOfDigits cs) else none

/-- Python `str.isdigit` restricted to ASCII (the CBS data is ASCII; the
Unicode digit classes accepted by Python are not modelled). -/
def pyIsDigit (s : String) : Bool :=
  decide (s.toList ≠ []) && s.toList.all Char.isDigit

/-- Python `int(s)`: optional sign followed by digits.  The whitespace
trimming and underscore grouping Python also accepts are not modelled. -/
def pyIntParse (s : String) : Option Int :=
  match s.toList with
  | '-' :: rest => (digitsToNat rest).map (fun n => -(n : Int))
  | '+' :: rest => (digitsToNat rest).map (fun n => (n : Int))
  | l => (digitsToNat l).map (fun n => (n : Int))

/-- Mantissa of a Python float literal: digits with at most one point, at
least one digit overall, returned as (numerator, power-of-ten denominator). -/
def parseMantissa (cs : List Char) : Option (Int × Nat) :=
  match splitOnFuel ['.'] cs.length cs with
  | [ip] => (digitsToNat ip).map (fun n => ((n : Int), 1))
  | [ip, fp] =>
    if (ip ≠ [] ∨ fp ≠ []) ∧ ip.all Char.isDigit ∧ fp.all Char.isDigit then
      some (((natOfDigits ip * 10 ^ fp.length + natOfDigits fp : Nat) : Int),
        10 ^ fp.length)
    else none
  | _ => none

/-- Mantissa with an optional decimal exponent (the input is lowercased
before the `e` split). -/
def pyFloatBody (cs : List Char) : Option (Int × Nat) :=
  match splitOnFuel ['e'] cs.length cs with
  | [m] => parseMantissa m
  | [m, ex] =>
    match parseMantissa m, pyIntParse (String.mk ex) with
    | some nd, some e =>
      match e with
      | .ofNat k => some (nd.1 * (10 : Int) ^ k, nd.2)
      | .negSucc k => some (nd.1, nd.2 * 10 ^ (k + 1))
    | _, _ => none
  | _ => none

/-- Python `float(s)` on finite decimal literals.  The special forms Python
also accepts (`inf`, `nan`, underscores, surrounding whitespace) are not
modelled; none of them occur in the claims or the data paths at issue. -/
def pyFloatParse (s : String) : Option (Int × Nat) :=
  let cs := s.toList.map Char.toLower
  match cs with
  | '-' :: rest => (pyFloatBody rest).map (fun nd => (-nd.1, nd.2))
  | '+' :: rest => pyFloatBody rest
  | _ => pyFloatBody cs

/-- Python `str(value)` as used in the f-string building `bronze_pk` and the
dummy-column labels.  Rendering of floats and timestamps is approximate
(Python repr rules); no claim exercises those cases, keys and categories in
this pipeline are strings or integers. -/
def pyStr : Value → String
  | .null => "None"
  | .str s => s
  | .int n => toString n
  | .float num den => toString num ++ "/" ++ toString den
  | .date y m d => toString y ++ "-" ++ toString m ++ "-" ++ toString d

/- ### Landing loader ("Bronze"), from src/code/data_loader_bronze.py

`insert_json_data` reads one JSON resource, infers a schema from the first
record, prepends the synthesized `bronze_pk` column, drops and recreates the
target table and bulk-inserts the cleaned records.  The JSON reading is
modelled by passing the decoded record list.  The bulk insert goes through
the DBAPI `cursor.executemany`, which sqlite3 runs row by row and is not
atomic: the first failing record raises, SQLite's ABORT resolution backs
out only the failing statement, and since the try/except is inside the
`engine.begin()` block the caught exception lets the transaction commit the
records preceding the failure.  Failure causes modelled: a record missing a
key of the first record raises during SQLAlchemy's bind-parameter
processing, before any record is applied (zero rows commit); a duplicate
`bronze_pk` raises at the offending record (the preceding records commit);
`externalFail` is the oracle for failures whose cause lies outside the
value model (driver-level type mismatches) — `some k` means the insert
raises while applying record `k`. -/

/-- Candidate natural-key field names tried in order by
`DatabaseBronze._infer_primary_key`. -/
def bronzeKeyCandidates : List String := ["ID", "Key", "DimensionKey"]

/-- `_infer_primary_key`: first candidate present among the first record's
keys; `none` models the `return` without a value (the caller does not check
for it). -/
def inferPrimaryKey (sample : Row) : Option String :=
  bronzeKeyCandidates.find? (fun k => (rowGet sample k).isSome)

/-- String fields are stripped; every other value passes through
(`_clean_data`'s dict comprehension). -/
def cleanValueBronze : Value → Value
  | .str s => .str (pyStrip s)
  | v => v

/-- One record after the strip pass of `_clean_data`. -/
def strippedRecord (r : Row) : Row :=
  r.map (fun kv => (kv.1, cleanValueBronze kv.2))

/-- The concatenated primary key `f"{file_name}_{pk}"` where
`pk = clean_record.get(primary_key)`; a missing key or a `None` primary-key
name renders as the string `None`, exactly as the Python f-string does. -/
def bronzePkString (fileName : String) (pkName : Option String) (r : Row) : String :=
  fileName ++ "_" ++ pyStr ((pkName.bind (fun k => rowGet (strippedRecord r) k)).getD .null)

/-- `_clean_data` on one record: strip strings, then set `bronze_pk` and
`_source_file`. -/
def cleanRecord (fileName : String) (pkName : Option String) (r : Row) : Row :=
  rowSet (rowSet (strippedRecord r) "bronze_pk" (.str (bronzePkString fileName pkName r)))
    "_source_file" (.str fileName)

/-- `_clean_data` over the record list. -/
def cleanData (fileName : String) (pkName : Option String) (data : List Row) : List Row :=
  data.map (cleanRecord fileName pkName)

/-- `DatabaseBronze._infer_column_type`: native integer, native float,
everything else String. -/
def inferColumnTypeBronze : Value → SqlType
  | .int _ => .integer
  | .float _ _ => .float
  | _ => .string

/-- The bind-parameter keys SQLAlchemy compiles the statement from: the
keys of the first cleaned record. -/
def requiredKeys (cleaned : List Row) : List String :=
  (cleaned.headD []).map Prod.fst

/-- Does some cleaned record lack a bind parameter of the compiled
statement?  If so, `conn.execute` raises before any record is applied. -/
def missingBindParam (cleaned : List Row) : Bool :=
  cleaned.any (fun r => (requiredKeys cleaned).any (fun k => (rowGet r k).isNone))

/-- The records actually committed by the row-by-row `executemany`: records
are applied in order until one raises — at the index named by the
external-failure oracle, or at the first record whose `bronze_pk` repeats
an already-applied one (the primary-key constraint).  The failing record
and everything after it are lost; the preceding records commit because the
caught exception lets `engine.begin()` commit. -/
def insertedPrefix (failAt : Option Nat) : Nat → List Value → List Row → List Row
  | _, _, [] => []
  | i, seen, r :: rest =>
    if failAt = some i then []
    else
      let pk := (rowGet r "bronze_pk").getD .null
      if seen.any (fun w => decide (w = pk)) then []
      else r :: insertedPrefix failAt (i + 1) (pk :: seen) rest

/-- The bronze table built by `insert_json_data` from a non-empty resource:
schema from the first cleaned record with `bronze_pk` forced first; rows
are the committed prefix of the bulk insert — all of them on success, none
when a bind parameter is missing, and the records preceding the first
failure otherwise. -/
def bronzeTableFor (externalFail : Option Nat) (fileName tableName : String)
    (data : List Row) : DBTable :=
  let pkName := inferPrimaryKey (data.headD [])
  let cleaned := cleanData fileName pkName data
  let firstClean := cleaned.headD []
  let cols : List (String × SqlType) :=
    ("bronze_pk", SqlType.string) ::
      (firstClean.filter (fun kv => decide (kv.1 ≠ "bronze_pk"))).map
        (fun kv => (kv.1, inferColumnTypeBronze kv.2))
  ⟨tableName, cols,
   if missingBindParam cleaned then [] else insertedPrefix externalFail 0 [] cleaned⟩

/-- `DatabaseBronze.insert_json_data` for an already-decoded resource:
empty data returns untouched; otherwise the table is dropped and recreated
with `bronze_pk` forced first, and the cleaned records are bulk-inserted.
A failed insert is caught and logged; the committed prefix remains. -/
def insertJsonData (externalFail : Option Nat) (fileName tableName : String)
    (data : List Row) (db : Database) : Database :=
  match data with
  | [] => db
  | _ :: _ =>
    replaceTable db tableName (bronzeTableFor externalFail fileName tableName data)

/-- `Path.stem` for a `*.json` file name: drop the extension. -/
def stemOfJson (fileName : String) : String :=
  String.mk (fileName.toList.take (fileName.toList.length - 5))

/-- Resource-role classification of `ingest_0_raw_folder`: the canonical
fact resource versus a dimension resource. -/
def bronzeTableName (identifier fileName : String) : String :=
  if fileName = "TypedDataSet.json" then identifier ++ "_fact"
  else identifier ++ "_dim_" ++ stemOfJson fileName

/-- `ingest_0_raw_folder` over the identifier's decoded resources
(file name, record list), with the per-table insert-failure oracle. -/
def ingestFolder (externalFail : String → Option Nat) (identifier : String)
    (resources : List (String × List Row)) (db : Database) : Database :=
  resources.foldl (fun acc r =>
    let tn := bronzeTableName identifier r.1
    insertJsonData (externalFail tn) r.1 tn r.2 acc) db

/- ### Relational resolver ("Silver"), from src/code/data_loader_silver.py

`create_silver_table` reflects the bronze database, left-joins the fact
table with every name-matched dimension table, cleans the joined rows,
re-infers a schema and replace-persists one `{identifier}_silver` table.
The bulk insert here is NOT wrapped in try/except in the source; a failure
propagates out of the method, which the model records as a `some` error in
the second component of the result (the table itself has already been
dropped and recreated empty at that point). -/

/-- Table-name helpers fixed by the naming scheme. -/
def factTableName (identifier : String) : String := identifier ++ "_fact"

/-- Dimension tables are recognized by the `{identifier}_dim_` name pattern. -/
def dimPre (identifier : String) : String := identifier ++ "_dim_"

/-- Name of the persisted silver table. -/
def silverTableName (identifier : String) : String := identifier ++ "_silver"

/-- The dimension tables of an identifier, in catalogue order. -/
def dimTablesOf (bronze : Database) (identifier : String) : List DBTable :=
  bronze.filter (fun t => strStartsWith (dimPre identifier) t.name)

/-- Column names of a table. -/
def colNames (t : DBTable) : List String := t.cols.map Prod.fst

/-- The dimension's short name:
`dim_table.name.replace(dim_prefix, "")`. -/
def shortNameOf (identifier dimName : String) : String :=
  pyReplace dimName (dimPre identifier) ""

/-- Spaces removed, for the fallback fact-column match
(`dim_suffix.replace(" ", "")`). -/
def removeSpaces (s : String) : String := pyReplace s " " ""

/-- Foreign-key discovery on the fact side: exact name equality first, then
the space-insensitive fallback scanning the fact columns in order. -/
def matchForeignKey (dimSuffix : String) (factCols : List String) : Option String :=
  if dimSuffix ∈ factCols then some dimSuffix
  else factCols.find? (fun c => decide (c = removeSpaces dimSuffix))

/-- Primary-key discovery on the dimension side: ordered candidates
`Key`, `DimensionKey`, `ID`, `Code`. -/
def silverPkCandidates : List String := ["Key", "DimensionKey", "ID", "Code"]

/-- First primary-key candidate among the dimension's columns. -/
def matchPrimaryKey (dimCols : List String) : Option String :=
  silverPkCandidates.find? (fun k => k ∈ dimCols)

/-- A dimension that passed both discoveries and takes part in the join. -/
structure JoinedDim where
  table : DBTable
  suffix : String
  fkCol : String
  pkCol : String
deriving DecidableEq

/-- The dimensions actually joined, in catalogue order: those with both a
resolved foreign key in the fact table and a resolved primary key. -/
def joinedDims (bronze : Database) (identifier : String) (fact : DBTable) :
    List JoinedDim :=
  (dimTablesOf bronze identifier).filterMap (fun d =>
    let suffix := shortNameOf identifier d.name
    match matchForeignKey suffix (colNames fact), matchPrimaryKey (colNames d) with
    | some fk, some pk => some ⟨d, suffix, fk, pk⟩
    | _, _ => none)

/-- Aliased label of a selected dimension column:
`f"{dim_suffix}_{col.name}"`. -/
def dimLabel (suffix col : String) : String := suffix ++ "_" ++ col

/-- The descriptive dimension columns selected into the join: everything
except the dimension's primary key, the bronze bookkeeping columns and `ID`. -/
def selectedDimCols (jd : JoinedDim) : List String :=
  (colNames jd.table).filter (fun c =>
    decide (c ∉ [jd.pkCol, "bronze_pk", "_source_file", "ID"]))

/-- SQL equality in the join condition: two non-null equal values.  SQL
`NULL` compares false to everything; SQLite type-affinity coercions between
differently typed cells are not modelled (the join keys of this pipeline are
strings on both sides). -/
def valueEqSql : Option Value → Option Value → Bool
  | some a, some b => decide (a ≠ .null) && decide (b ≠ .null) && decide (a = b)
  | _, _ => false

/-- The dimension rows matching one accumulated row under the join
condition `match_col == dim_pk_col`. -/
def dimMatches (jd : JoinedDim) (r : Row) : List Row :=
  jd.table.rows.filter (fun dr => valueEqSql (rowGet r jd.fkCol) (rowGet dr jd.pkCol))

/-- Concatenation of per-element lists (structural, kernel-friendly). -/
def flatMapL (f : α → List β) : List α → List β
  | [] => []
  | a :: rest => f a ++ flatMapL f rest

/-- One accumulated row after the left outer join with one dimension: kept
as-is with null dimension columns when no dimension row matches, otherwise
one output row per matching dimension row. -/
def joinDimRow (jd : JoinedDim) (r : Row) : List Row :=
  let ms := dimMatches jd r
  if ms.isEmpty then
    [r ++ (selectedDimCols jd).map (fun c => (dimLabel jd.suffix c, Value.null))]
  else
    ms.map (fun dr =>
      r ++ (selectedDimCols jd).map (fun c =>
        (dimLabel jd.suffix c, (rowGet dr c).getD .null)))

/-- Left outer join of the accumulated row set with one dimension. -/
def joinDim (jd : JoinedDim) (rows : List Row) : List Row :=
  flatMapL (joinDimRow jd) rows

/-- The result columns of the join query: all fact columns, then the
aliased descriptive columns of each joined dimension. -/
def silverKeys (fact : DBTable) (jds : List JoinedDim) : List String :=
  colNames fact ++ flatMapL (fun jd => (selectedDimCols jd).map (dimLabel jd.suffix)) jds

/-- The rows returned by the join query. -/
def silverQueryRows (fact : DBTable) (jds : List JoinedDim) : List Row :=
  jds.foldl (fun rs jd => joinDim jd rs) fact.rows

/-- `DatabaseSilver._clean_value`: trim strings, empty string becomes null. -/
def cleanValueSilver : Value → Value
  | .str s => let t := pyStrip s; if t = "" then .null else .str t
  | v => v

/-- One joined row cleaned and normalized to the result keys (the Python
code builds a fresh dict from `zip(keys, row)`). -/
def cleanSilverRow (keys : List String) (r : Row) : Row :=
  keys.map (fun k => (k, cleanValueSilver ((rowGet r k).getD .null)))

/-- `DatabaseSilver._infer_column_type`: null defaults to String; native
integer and float map to their types; a digit-only string is Integer; a
string parsing as a Python float is Float; anything else is String. -/
def inferColumnTypeSilver : Value → SqlType
  | .int _ => .integer
  | .float _ _ => .float
  | .str s =>
    if pyIsDigit s then .integer
    else if (pyFloatParse s).isSome then .float
    else .string
  | _ => .string

/-- Column type over a sample: the first non-null value among the first 100
cleaned rows decides; an all-null sample defaults to String. -/
def inferFromSample (vals : List Value) : SqlType :=
  match (vals.take 100).find? (fun v => decide (v ≠ .null)) with
  | some v => inferColumnTypeSilver v
  | none => .string

/-- The silver schema: a `silver_id` integer surrogate key first, then every
result key (other than a clashing `silver_id`) with its inferred type. -/
def silverSchema (keys : List String) (cleaned : List Row) : List (String × SqlType) :=
  ("silver_id", SqlType.integer) ::
    (keys.filter (fun k => decide (k ≠ "silver_id"))).map
      (fun k => (k, inferFromSample (cleaned.map (fun r => (rowGet r k).getD .null))))

/-- `DatabaseSilver.create_silver_table`.  Result: the silver database after
the call, and `some` error message when the uncaught bulk insert failed.
The stored rows omit the autoincrement `silver_id` values, which no claim
inspects. -/
def createSilverTable (insertFails : String → Bool) (bronze : Database)
    (identifier : String) (silver : Database) : Database × Option String :=
  match dbFind bronze (factTableName identifier) with
  | none => (silver, none)
  | some fact =>
    let jds := joinedDims bronze identifier fact
    let keys := silverKeys fact jds
    let rows := silverQueryRows fact jds
    if rows.isEmpty then (silver, none)
    else
      let cleaned := rows.map (cleanSilverRow keys)
      let tn := silverTableName identifier
      let schema := silverSchema keys cleaned
      if insertFails tn then
        (replaceTable silver tn ⟨tn, schema, []⟩,
          some ("bulk insert failed for " ++ tn))
      else
        (replaceTable silver tn ⟨tn, schema, cleaned⟩, none)

/-- The module-level driver loop of data_loader_silver.py:
`for table_id in CBS_TABLES_T3: db.create_silver_table(table_id)`.
An exception escaping `create_silver_table` aborts the remaining
identifiers. -/
def silverRun (insertFails : String → Bool) (bronze : Database)
    (ids : List String) (silver : Database) : Database × Option String :=
  match ids with
  | [] => (silver, none)
  | i :: rest =>
    match createSilverTable insertFails bronze i silver with
    | (db, none) => silverRun insertFails bronze rest db
    | (db, some e) => (db, some e)

/- ### Feature flattener ("Gold"), from src/code/data_loader_gold.py

`transform_80072ned` is a pure pandas DataFrame transform.  A DataFrame is
modelled as a column-name list plus rows; each step below follows one
numbered step of the source.  Pandas specifics modelled: `object` dtype is
approximated as "some non-null cell of the column is a string" (a column
read back from a SQLite TEXT column), the `.str` accessor maps non-string
cells to missing, `to_numeric(errors="coerce")` parses with Python float
semantics and turns failures into missing, `get_dummies` keeps one row per
row and appends one 0/1 integer indicator column per distinct non-null
category (pandas orders the dummy columns sorted; first-occurrence order is
used here, which no claim observes). -/

/-- A pandas DataFrame: named columns and rows. -/
structure DataFrame where
  cols : List String
  rows : List Row
deriving DecidableEq

/-- Apply a cell function to one column of every row. -/
def mapColumn (col : String) (f : Value → Value) (df : DataFrame) : DataFrame :=
  ⟨df.cols, df.rows.map (fun r => r.map (fun kv =>
    if kv.1 = col then (kv.1, f kv.2) else kv))⟩

/-- Approximation of `df[col].dtype == object` for a column materialized
from SQLite: some cell holds a string. -/
def colIsObject (df : DataFrame) (col : String) : Bool :=
  df.rows.any (fun r =>
    match rowGet r col with
    | some (.str _) => true
    | _ => false)

/-- The pandas `.str.replace(",", ".")` cell behavior: strings are
rewritten, missing stays missing, non-strings become missing. -/
def strReplaceCommaCell : Value → Value
  | .str s => .str (pyReplace s "," ".")
  | _ => .null

/-- `pd.to_numeric(errors="coerce")` on one cell: numerics pass through,
parseable strings become floats, anything else becomes missing. -/
def toNumericCell : Value → Value
  | .int n => .int n
  | .float num den => .float num den
  | .str s =>
    match pyFloatParse s with
    | some nd => .float nd.1 nd.2
    | none => .null
  | _ => .null

/-- The full cell-level coercion of the target column
`Ziekteverzuimpercentage_1` (source lines 83-88): comma-to-point rewrite
when the column is object-typed, then numeric coercion. -/
def coerceZvCell (objectDtype : Bool) (v : Value) : Value :=
  toNumericCell (if objectDtype then strReplaceCommaCell v else v)

/-- Step 1: reformat `Ziekteverzuimpercentage_1` to float. -/
def goldStep1 (df : DataFrame) : DataFrame :=
  if "Ziekteverzuimpercentage_1" ∈ df.cols then
    mapColumn "Ziekteverzuimpercentage_1"
      (coerceZvCell (colIsObject df "Ziekteverzuimpercentage_1")) df
  else df

/-- The quarterly filter `df["Perioden"].str.contains("KW", na=False)`:
keep only string cells containing the marker. -/
def periodKeep : Option Value → Bool
  | some (.str s) => pyContains s "KW"
  | _ => false

/-- `parse_quarter`: split on the marker; exactly two parts give the first
day of the quarter, anything else gives NaT.  Integer-parse failures raise
in Python rather than yielding NaT; they are folded into NaT here and never
reached, since the filtered values all split around a marker occurrence. -/
def parseQuarter (s : String) : Option (Int × Int × Int) :=
  match pySplit s "KW" with
  | [y, q] =>
    match pyIntParse y, pyIntParse q with
    | some yn, some qn => some (yn, (qn - 1) * 3 + 1, 1)
    | _, _ => none
  | _ => none

/-- The `Perioden_dt` cell: a timestamp or NaT. -/
def parseQuarterCell : Value → Value
  | .str s =>
    match parseQuarter s with
    | some d => .date d.1 d.2.1 d.2.2
    | none => .null
  | _ => .null

/-- Step 2: keep quarterly records only and derive `Perioden_dt`. -/
def goldStep2 (df : DataFrame) : DataFrame :=
  if "Perioden" ∈ df.cols then
    let kept := df.rows.filter (fun r => periodKeep (rowGet r "Perioden"))
    ⟨df.cols ++ ["Perioden_dt"],
     kept.map (fun r =>
       r ++ [("Perioden_dt", parseQuarterCell ((rowGet r "Perioden").getD .null))])⟩
  else df

/-- Step 3: numeric coercion of the category-group identifier. -/
def goldStep3 (df : DataFrame) : DataFrame :=
  if "BedrijfskenmerkenSBI2008_CategoryGroupID" ∈ df.cols then
    mapColumn "BedrijfskenmerkenSBI2008_CategoryGroupID" toNumericCell df
  else df

/-- Distinct non-null categories of a column, in first-occurrence order. -/
def dummyCats (df : DataFrame) (col : String) : List Value :=
  ((df.rows.map (fun r => (rowGet r col).getD .null)).filter
    (fun v => decide (v ≠ .null))).dedup

/-- `pd.get_dummies(df, columns=[col], prefix=tag, dtype=int)`: drop the
source column, append one 0/1 indicator per category. -/
def getDummies (col tag : String) (df : DataFrame) : DataFrame :=
  if col ∈ df.cols then
    let cats := dummyCats df col
    ⟨df.cols.filter (fun c => decide (c ≠ col))
       ++ cats.map (fun v => dimLabel tag (pyStr v)),
     df.rows.map (fun r =>
       r.filter (fun kv => decide (kv.1 ≠ col))
         ++ cats.map (fun v =>
           (dimLabel tag (pyStr v),
            Value.int (if (rowGet r col).getD .null = v then 1 else 0))))⟩
  else df

/-- The bookkeeping and superseded columns dropped at the end. -/
def goldDropList : List String :=
  ["bronze_pk", "_source_file", "ID", "Perioden", "Perioden_Description",
   "Perioden_Title", "BedrijfskenmerkenSBI2008_Title",
   "BedrijfskenmerkenSBI2008_Description"]

/-- `df.drop(columns=..., errors="ignore")`. -/
def dropColumns (names : List String) (df : DataFrame) : DataFrame :=
  ⟨df.cols.filter (fun c => decide (c ∉ names)),
   df.rows.map (fun r => r.filter (fun kv => decide (kv.1 ∉ names)))⟩

/-- `transform_80072ned`: the flagship gold transform, steps 1-5 plus the
final column drop. -/
def transform80072ned (df : DataFrame) : DataFrame :=
  dropColumns goldDropList
    (getDummies "Perioden_Status" "PeriodenStatus"
      (getDummies "BedrijfskenmerkenSBI2008" "SBI"
        (goldStep3 (goldStep2 (goldStep1 df)))))

/- ### Raw cache, from src/code/data_loader_raw.py

The cache state is the set of per-identifier directories plus a count of the
network retrievals performed.  `get_table` checks the directory, fetches and
saves on a miss (modelled as always succeeding; a fetch failure re-raises
and is outside the claims), and on a hit logs and executes a bare `return`,
which yields Python `None` — modelled as `none`. -/

/-- The raw store: existing directories and retrievals performed. -/
structure RawState where
  dirs : List String
  fetchCount : Nat
deriving DecidableEq

/-- `CBSDataLoader._file_exists`. -/
def fileExists (st : RawState) (d : String) : Bool :=
  st.dirs.any (fun x => decide (x = d))

/-- `CBSDataLoader.get_table`: the returned value and the new state.  The
location is modelled by the identifier naming the per-identifier directory. -/
def getTable (st : RawState) (tableId : String) : Option String × RawState :=
  if fileExists st tableId then (none, st)
  else (some tableId, ⟨st.dirs ++ [tableId], st.fetchCount + 1⟩)

/- ### General lemmas about the row and database operations -/

theorem rowGet_cons (kv : String × Value) (r : Row) (k : String) :
    rowGet (kv :: r) k = if kv.1 = k then some kv.2 else rowGet r k := by
  by_cases h : kv.1 = k <;> simp [rowGet, List.find?, h]

theorem rowGet_append_of_eq_none (r1 r2 : Row) (k : String)
    (h : rowGet r1 k = none) : rowGet (r1 ++ r2) k = rowGet r2 k := by
  induction r1 with
  | nil => simp
  | cons kv rest ih =>
    rw [rowGet_cons] at h
    by_cases hk : kv.1 = k
    · simp [hk] at h
    · rw [List.cons_append, rowGet_cons, if_neg hk]
      exact ih (by simpa [hk] using h)

theorem rowGet_replaceMap_self (r : Row) (k : String) (v : Value)
    (h : (rowGet r k).isSome) :
    rowGet (r.map (fun kv => if kv.1 = k then (k, v) else kv)) k = some v := by
  induction r with
  | nil => simp [rowGet] at h
  | cons kv rest ih =>
    by_cases hk : kv.1 = k
    · simp [List.map_cons, hk, rowGet_cons]
    · rw [rowGet_cons, if_neg hk] at h
      simpa [List.map_cons, if_neg hk, rowGet_cons, hk] using ih h

theorem rowGet_replaceMap_ne (r : Row) (k k2 : String) (v : Value) (h : k2 ≠ k) :
    rowGet (r.map (fun kv => if kv.1 = k then (k, v) else kv)) k2 = rowGet r k2 := by
  induction r with
  | nil => rfl
  | cons kv rest ih =>
    by_cases hk : kv.1 = k
    · rw [List.map_cons, if_pos hk, rowGet_cons, rowGet_cons,
        if_neg (fun hh => h hh.symm), if_neg (fun hh => h (hk ▸ hh).symm)]
      exact ih
    · rw [List.map_cons, if_neg hk, rowGet_cons, rowGet_cons]
      by_cases he : kv.1 = k2
      · simp [he]
      · rw [if_neg he, if_neg he]; exact ih

theorem rowGet_append_single_ne (r : Row) (k k2 : String) (v : Value) (h : k2 ≠ k) :
    rowGet (r ++ [(k, v)]) k2 = rowGet r k2 := by
  induction r with
  | nil =>
    have : k ≠ k2 := fun hh => h hh.symm
    simp [rowGet, List.find?, this]
  | cons kv rest ih =>
    rw [List.cons_append, rowGet_cons, rowGet_cons]
    by_cases he : kv.1 = k2
    · simp [he]
    · rw [if_neg he, if_neg he]; exact ih

theorem rowGet_rowSet_self (r : Row) (k : String) (v : Value) :
    rowGet (rowSet r k v) k = some v := by
  unfold rowSet
  by_cases hp : (rowGet r k).isSome
  · rw [if_pos hp]; exact rowGet_replaceMap_self r k v hp
  · rw [if_neg hp]
    have hnone : rowGet r k = none := by
      cases hg : rowGet r k
      · rfl
      · rw [hg] at hp; simp at hp
    rw [rowGet_append_of_eq_none r _ k hnone, rowGet_cons]
    simp

theorem rowGet_rowSet_ne (r : Row) (k k2 : String) (v : Value) (h : k2 ≠ k) :
    rowGet (rowSet r k v) k2 = rowGet r k2 := by
  unfold rowSet
  by_cases hp : (rowGet r k).isSome
  · rw [if_pos hp]; exact rowGet_replaceMap_ne r k k2 v h
  · rw [if_neg hp]; exact rowGet_append_single_ne r k k2 v h

theorem dbFind_replaceTable_self (db : Database) (n : String) (t : DBTable)
    (h : t.name = n) : dbFind (replaceTable db n t) n = some t := by
  unfold dbFind replaceTable
  induction db with
  | nil => simp [List.find?, h]
  | cons x rest ih =>
    by_cases hx : x.name = n
    · rw [List.filter_cons_of_neg (by simp [hx])]
      exact ih
    · rw [List.filter_cons_of_pos (by simp [hx]), List.cons_append,
        List.find?_cons_of_neg _ (by simp [hx])]
      exact ih

theorem dbFind_replaceTable_ne (db : Database) (n n2 : String) (t : DBTable)
    (ht : t.name = n) (h : n2 ≠ n) :
    dbFind (replaceTable db n t) n2 = dbFind db n2 := by
  have htn : t.name ≠ n2 := by rw [ht]; exact fun hh => h hh.symm
  unfold dbFind replaceTable
  induction db with
  | nil => simp [List.find?, htn]
  | cons x rest ih =>
    by_cases hx : x.name = n
    · have hx2 : x.name ≠ n2 := by rw [hx]; exact fun hh => h hh.symm
      rw [List.filter_cons_of_neg (by simp [hx]),
        List.find?_cons_of_neg _ (by simp [hx2])]
      exact ih
    · rw [List.filter_cons_of_pos (by simp [hx]), List.cons_append]
      by_cases he : x.name = n2
      · rw [List.find?_cons_of_pos _ (by simp [he]),
          List.find?_cons_of_pos _ (by simp [he])]
      · rw [List.find?_cons_of_neg _ (by simp [he]),
          List.find?_cons_of_neg _ (by simp [he])]
        exact ih

theorem insertedPrefix_of_nodup (i : Nat) (seen : List Value) (rows : List Row)
    (hnd : (rows.map (fun r => (rowGet r "bronze_pk").getD .null)).Nodup)
    (hseen : ∀ r ∈ rows, (rowGet r "bronze_pk").getD .null ∉ seen) :
    insertedPrefix none i seen rows = rows := by
  induction rows generalizing i seen with
  | nil => rfl
  | cons r rest ih =>
    rw [List.map_cons, List.nodup_cons] at hnd
    have hstep : insertedPrefix none i seen (r :: rest)
        = if (none : Option Nat) = some i then []
          else
            if seen.any (fun w =>
                decide (w = (rowGet r "bronze_pk").getD .null)) then []
            else r :: insertedPrefix none (i + 1)
              ((rowGet r "bronze_pk").getD .null :: seen) rest := rfl
    rw [hstep, if_neg (by simp)]
    have hany : seen.any (fun w =>
        decide (w = (rowGet r "bronze_pk").getD .null)) = false := by
      rw [List.any_eq_false]
      intro w hw
      simp only [decide_eq_true_eq]
      intro hwe
      exact hseen r (List.mem_cons_self r rest) (hwe ▸ hw)
    rw [hany]
    simp only [Bool.false_eq_true, if_false]
    rw [ih (i + 1) _ hnd.2]
    intro r2 hr2
    rw [List.mem_cons]
    rintro (hc | hc)
    · exact hnd.1 (hc ▸ List.mem_map_of_mem _ hr2)
    · exact hseen r2 (List.mem_cons_of_mem r hr2) hc

theorem filter_length_mono {α : Type} {p q : α → Bool} (l : List α)
    (h : ∀ a ∈ l, p a = true → q a = true) :
    (l.filter p).length ≤ (l.filter q).length := by
  induction l with
  | nil => simp
  | cons a rest ih =>
    have ihr := ih (fun x hx => h x (List.mem_cons_of_mem a hx))
    by_cases hp : p a = true
    · rw [List.filter_cons_of_pos hp, List.filter_cons_of_pos (h a (List.mem_cons_self a rest) hp)]
      simpa using ihr
    · rw [List.filter_cons_of_neg (by simpa using hp)]
      by_cases hq : q a = true
      · rw [List.filter_cons_of_pos hq]
        exact Nat.le_succ_of_le ihr
      · rw [List.filter_cons_of_neg (by simpa using hq)]
        exact ihr

theorem valueEqSql_eq_true {o1 o2 : Option Value} :
    valueEqSql o1 o2 = true ↔ ∃ a, o1 = some a ∧ o2 = some a ∧ a ≠ .null := by
  cases o1 with
  | none => simp [valueEqSql]
  | some a =>
    cases o2 with
    | none => simp [valueEqSql]
    | some b =>
      simp only [valueEqSql, Bool.and_eq_true, decide_eq_true_eq]
      constructor
      · rintro ⟨⟨ha, hb⟩, hab⟩
        exact ⟨a, rfl, by rw [hab], ha⟩
      · rintro ⟨c, hc1, hc2, hc3⟩
        cases hc1; cases hc2
        exact ⟨⟨hc3, hc3⟩, rfl⟩

/-- Per-dimension uniqueness of the join key: no dimension row's key value
matches more than one dimension row. -/
def uniqueKeyMatches (jd : JoinedDim) : Bool :=
  jd.table.rows.all (fun dr =>
    decide ((jd.table.rows.filter (fun dr2 =>
      valueEqSql (rowGet dr jd.pkCol) (rowGet dr2 jd.pkCol))).length ≤ 1))

theorem dimMatches_length_le_one {jd : JoinedDim} (hu : uniqueKeyMatches jd = true)
    (r : Row) : (dimMatches jd r).length ≤ 1 := by
  unfold dimMatches
  cases hf : jd.table.rows.filter (fun dr =>
      valueEqSql (rowGet r jd.fkCol) (rowGet dr jd.pkCol)) with
  | nil => simp [hf]
  | cons dr rest =>
    have hdr : dr ∈ jd.table.rows.filter (fun dr =>
        valueEqSql (rowGet r jd.fkCol) (rowGet dr jd.pkCol)) := by
      rw [hf]; exact List.mem_cons_self dr rest
    rw [List.mem_filter] at hdr
    obtain ⟨hmem, hpdr⟩ := hdr
    obtain ⟨a, hv, hpk, hnn⟩ := valueEqSql_eq_true.mp hpdr
    have hmono : (jd.table.rows.filter (fun dr2 =>
        valueEqSql (rowGet r jd.fkCol) (rowGet dr2 jd.pkCol))).length
        ≤ (jd.table.rows.filter (fun dr2 =>
        valueEqSql (rowGet dr jd.pkCol) (rowGet dr2 jd.pkCol))).length := by
      refine filter_length_mono _ (fun dr2 _ hp2 => ?_)
      obtain ⟨b, hv2, hpk2, hnn2⟩ := valueEqSql_eq_true.mp hp2
      rw [hv] at hv2
      cases hv2
      exact valueEqSql_eq_true.mpr ⟨a, hpk, hpk2, hnn⟩
    have hall := (List.all_eq_true.mp hu) dr hmem
    rw [decide_eq_true_eq] at hall
    rw [← hf]
    exact le_trans hmono hall

theorem joinDimRow_length_eq_one {jd : JoinedDim} (hu : uniqueKeyMatches jd = true)
    (r : Row) : (joinDimRow jd r).length = 1 := by
  unfold joinDimRow
  cases hm : dimMatches jd r with
  | nil => simp [hm]
  | cons x rest =>
    have := dimMatches_length_le_one hu r
    rw [hm] at this
    simp only [List.length_cons] at this
    have hrest : rest = [] := by
      cases rest with
      | nil => rfl
      | cons y t => simp at this
    subst hrest
    simp

theorem flatMapL_length_of_one {α β : Type} {f : α → List β} {l : List α}
    (h : ∀ a ∈ l, (f a).length = 1) : (flatMapL f l).length = l.length := by
  induction l with
  | nil => rfl
  | cons a rest ih =>
    unfold flatMapL
    rw [List.length_append, h a (List.mem_cons_self a rest),
      ih (fun x hx => h x (List.mem_cons_of_mem a hx)), List.length_cons]
    omega

theorem joinDim_length {jd : JoinedDim} (hu : uniqueKeyMatches jd = true)
    (rows : List Row) : (joinDim jd rows).length = rows.length :=
  flatMapL_length_of_one (fun r _ => joinDimRow_length_eq_one hu r)

theorem silverQueryRows_length (fact : DBTable) (jds : List JoinedDim)
    (hu : ∀ jd ∈ jds, uniqueKeyMatches jd = true) :
    (silverQueryRows fact jds).length = fact.rows.length := by
  unfold silverQueryRows
  suffices h : ∀ (rows : List Row),
      (jds.foldl (fun rs jd => joinDim jd rs) rows).length = rows.length from h _
  induction jds with
  | nil => intro rows; rfl
  | cons jd rest ih =>
    intro rows
    rw [List.foldl_cons,
      ih (fun x hx => hu x (List.mem_cons_of_mem jd hx)),
      joinDim_length (hu jd (List.mem_cons_self jd rest))]

theorem silverQueryRows_nil (fact : DBTable) (jds : List JoinedDim)
    (h : fact.rows = []) : silverQueryRows fact jds = [] := by
  unfold silverQueryRows
  rw [h]
  induction jds with
  | nil => rfl
  | cons jd rest ih => simpa [List.foldl_cons, joinDim, flatMapL] using ih

theorem mapColumn_cols (col : String) (f : Value → Value) (df : DataFrame) :
    (mapColumn col f df).cols = df.cols := rfl

theorem rowGet_mapValue_ne (r : Row) (c k : String) (f : Value → Value) (h : k ≠ c) :
    rowGet (r.map (fun kv => if kv.1 = c then (kv.1, f kv.2) else kv)) k = rowGet r k := by
  induction r with
  | nil => rfl
  | cons kv rest ih =>
    by_cases hk : kv.1 = c
    · rw [List.map_cons, if_pos hk, rowGet_cons, rowGet_cons]
      have : kv.1 ≠ k := by rw [hk]; exact fun hh => h hh.symm
      rw [if_neg this, if_neg this]
      exact ih
    · rw [List.map_cons, if_neg hk, rowGet_cons, rowGet_cons]
      by_cases he : kv.1 = k
      · simp [he]
      · rw [if_neg he, if_neg he]; exact ih

theorem goldStep1_cols (df : DataFrame) : (goldStep1 df).cols = df.cols := by
  unfold goldStep1
  by_cases h : "Ziekteverzuimpercentage_1" ∈ df.cols
  · rw [if_pos h]; rfl
  · rw [if_neg h]

theorem goldStep1_keep_length (df : DataFrame) :
    ((goldStep1 df).rows.filter (fun r => periodKeep (rowGet r "Perioden"))).length
      = (df.rows.filter (fun r => periodKeep (rowGet r "Perioden"))).length := by
  unfold goldStep1
  by_cases h : "Ziekteverzuimpercentage_1" ∈ df.cols
  · rw [if_pos h]
    show ((df.rows.map _).filter _).length = _
    rw [List.filter_map, List.length_map]
    congr 1
    refine List.filter_congr (fun r _ => ?_)
    simp only [Function.comp]
    rw [rowGet_mapValue_ne r _ _ _ (by decide)]
  · rw [if_neg h]

theorem goldStep2_length (df : DataFrame) (h : "Perioden" ∈ df.cols) :
    (goldStep2 df).rows.length
      = (df.rows.filter (fun r => periodKeep (rowGet r "Perioden"))).length := by
  unfold goldStep2
  rw [if_pos h]
  simp

theorem goldStep3_length (df : DataFrame) :
    (goldStep3 df).rows.length = df.rows.length := by
  unfold goldStep3
  by_cases h : "BedrijfskenmerkenSBI2008_CategoryGroupID" ∈ df.cols
  · rw [if_pos h]; simp [mapColumn]
  · rw [if_neg h]

theorem getDummies_length (col tag : String) (df : DataFrame) :
    (getDummies col tag df).rows.length = df.rows.length := by
  unfold getDummies
  by_cases h : col ∈ df.cols
  · rw [if_pos h]; simp
  · rw [if_neg h]

theorem dropColumns_length (names : List String) (df : DataFrame) :
    (dropColumns names df).rows.length = df.rows.length := by
  unfold dropColumns
  simp

/-- Characterization of a successful `create_silver_table` run: fact table
found, non-empty join result, successful insert. -/
theorem createSilverTable_eq_of (insertFails : String → Bool) (bronze silver : Database)
    (identifier : String) (fact : DBTable)
    (hfact : dbFind bronze (factTableName identifier) = some fact)
    (hne : (silverQueryRows fact (joinedDims bronze identifier fact)).isEmpty = false)
    (hins : insertFails (silverTableName identifier) = false) :
    createSilverTable insertFails bronze identifier silver
      = (replaceTable silver (silverTableName identifier)
          ⟨silverTableName identifier,
           silverSchema (silverKeys fact (joinedDims bronze identifier fact))
             ((silverQueryRows fact (joinedDims bronze identifier fact)).map
               (cleanSilverRow (silverKeys fact (joinedDims bronze identifier fact)))),
           (silverQueryRows fact (joinedDims bronze identifier fact)).map
             (cleanSilverRow (silverKeys fact (joinedDims bronze identifier fact)))⟩,
         none) := by
  unfold createSilverTable
  rw [hfact]
  simp [hne, hins]

/- ### Concrete fixtures used by the witnesses and counterexamples -/

/-- Oracle: every bulk insert succeeds. -/
def noFailOracle : String → Bool := fun _ => false

/-- Oracle: only the silver bulk insert of identifier `A` fails. -/
def failASilver : String → Bool := fun t => decide (t = silverTableName "A")

/-- A one-row fact table for identifier `I`. -/
def exFact1 : DBTable :=
  ⟨"I_fact",
   [("bronze_pk", .string), ("ID", .integer), ("Cat", .string), ("_source_file", .string)],
   [[("bronze_pk", Value.str "TypedDataSet.json_1"), ("ID", Value.int 1),
     ("Cat", Value.str "a"), ("_source_file", Value.str "TypedDataSet.json")]]⟩

/-- A dimension for `I` whose join-key column `Key` holds the value `a`
twice (its own bronze primary key is the distinct `ID`, so this table loads
fine in bronze). -/
def exDimDup : DBTable :=
  ⟨"I_dim_Cat",
   [("bronze_pk", .string), ("ID", .integer), ("Key", .string), ("Title", .string),
    ("_source_file", .string)],
   [[("bronze_pk", Value.str "Cat.json_1"), ("ID", Value.int 1), ("Key", Value.str "a"),
     ("Title", Value.str "t1"), ("_source_file", Value.str "Cat.json")],
    [("bronze_pk", Value.str "Cat.json_2"), ("ID", Value.int 2), ("Key", Value.str "a"),
     ("Title", Value.str "t2"), ("_source_file", Value.str "Cat.json")]]⟩

/-- A two-row fact table for identifier `J`. -/
def exFactJ : DBTable :=
  ⟨"J_fact",
   [("bronze_pk", .string), ("ID", .integer), ("Cat", .string), ("_source_file", .string)],
   [[("bronze_pk", Value.str "TypedDataSet.json_1"), ("ID", Value.int 1),
     ("Cat", Value.str "a"), ("_source_file", Value.str "TypedDataSet.json")],
    [("bronze_pk", Value.str "TypedDataSet.json_2"), ("ID", Value.int 2),
     ("Cat", Value.str "c"), ("_source_file", Value.str "TypedDataSet.json")]]⟩

/-- A dimension for `J` with unique join keys; key `c` is absent, so the
second fact row joins nothing and keeps null dimension columns. -/
def exDimJ : DBTable :=
  ⟨"J_dim_Cat",
   [("bronze_pk", .string), ("Key", .string), ("Title", .string), ("_source_file", .string)],
   [[("bronze_pk", Value.str "Cat.json_a"), ("Key", Value.str "a"),
     ("Title", Value.str "t1"), ("_source_file", Value.str "Cat.json")],
    [("bronze_pk", Value.str "Cat.json_b"), ("Key", Value.str "b"),
     ("Title", Value.str "t2"), ("_source_file", Value.str "Cat.json")]]⟩

/-- A dimension for `J` whose short name `Zebra` matches no fact column:
skipped by foreign-key discovery. -/
def exDimZebra : DBTable :=
  ⟨"J_dim_Zebra",
   [("bronze_pk", .string), ("Key", .string), ("Title", .string), ("_source_file", .string)],
   [[("bronze_pk", Value.str "Zebra.json_z"), ("Key", Value.str "z"),
     ("Title", Value.str "tz"), ("_source_file", Value.str "Zebra.json")]]⟩

/-- Bronze database for identifier `J`. -/
def exBronzeJ : Database := [exFactJ, exDimJ, exDimZebra]

/-- Bronze database holding non-empty fact tables for identifiers `A` and
`B` (no dimensions). -/
def exBronzeAB : Database :=
  [⟨"A_fact", [("bronze_pk", .string), ("V", .integer)],
    [[("bronze_pk", Value.str "TypedDataSet.json_1"), ("V", Value.int 7)]]⟩,
   ⟨"B_fact", [("bronze_pk", .string), ("V", .integer)],
    [[("bronze_pk", Value.str "TypedDataSet.json_1"), ("V", Value.int 8)]]⟩]

/-- A silver DataFrame exercising the flagship gold transform: one
quarterly record and one yearly record. -/
def exGoldDf : DataFrame :=
  ⟨["Perioden", "Ziekteverzuimpercentage_1", "BedrijfskenmerkenSBI2008"],
   [[("Perioden", Value.str "2023KW02"), ("Ziekteverzuimpercentage_1", Value.str "4,2"),
     ("BedrijfskenmerkenSBI2008", Value.str "A")],
    [("Perioden", Value.str "2023JJ00"), ("Ziekteverzuimpercentage_1", Value.str "3,1"),
     ("BedrijfskenmerkenSBI2008", Value.str "B")]]⟩

/- ### The claims -/

/-- C1 (amended): for an identifier whose bronze fact table exists and is
non-empty, when the bulk insert succeeds and every joined dimension's key
column matches each value at most once, the persisted silver table has
exactly as many rows as the bronze fact table — the joins are left outer
joins, so no fact row is dropped. -/
theorem silver_rowcount_eq_fact (insertFails : String → Bool) (bronze silver : Database)
    (identifier : String) (fact : DBTable)
    (hfact : dbFind bronze (factTableName identifier) = some fact)
    (hne : fact.rows ≠ [])
    (huniq : ∀ jd ∈ joinedDims bronze identifier fact, uniqueKeyMatches jd = true)
    (hins : insertFails (silverTableName identifier) = false) :
    ∃ t, dbFind (createSilverTable insertFails bronze identifier silver).1
        (silverTableName identifier) = some t
      ∧ t.rows.length = fact.rows.length := by
  have hlen := silverQueryRows_length fact (joinedDims bronze identifier fact) huniq
  have hrne : silverQueryRows fact (joinedDims bronze identifier fact) ≠ [] := by
    intro hh
    rw [hh] at hlen
    exact hne (List.eq_nil_of_length_eq_zero hlen.symm)
  have hne2 : (silverQueryRows fact (joinedDims bronze identifier fact)).isEmpty = false := by
    cases h : silverQueryRows fact (joinedDims bronze identifier fact) with
    | nil => exact absurd h hrne
    | cons a l => rfl
  rw [createSilverTable_eq_of insertFails bronze silver identifier fact hfact hne2 hins]
  exact ⟨_, dbFind_replaceTable_self silver _ _ rfl, by rw [List.length_map, hlen]⟩

/-- C1 counterexample: the claim as stated fails on the code.  With a
dimension whose key column holds `a` twice, the left join duplicates the
single fact row: the persisted silver table has 2 rows while the fact table
has 1.  And with an existing but empty fact table the method returns before
persisting anything, so no silver table exists at all. -/
theorem silver_rowcount_counterexample :
    (dbFind (createSilverTable noFailOracle [exFact1, exDimDup] "I" []).1
      (silverTableName "I")).map (fun t => t.rows.length) = some 2
    ∧ exFact1.rows.length = 1
    ∧ createSilverTable noFailOracle
        [⟨"E_fact", [("bronze_pk", .string)], []⟩] "E" [] = ([], none) := by
  refine ⟨by decide, by decide, by decide⟩

/-- C1 witness: the amended claim at a concrete bronze database with a
two-row fact table, one unique-key dimension and one unreferenced
dimension. -/
theorem silver_rowcount_witness :
    (dbFind (createSilverTable noFailOracle exBronzeJ "J" []).1
      (silverTableName "J")).map (fun t => t.rows.length) = some 2 := by
  obtain ⟨t, ht, hlen⟩ := silver_rowcount_eq_fact noFailOracle exBronzeJ [] "J" exFactJ
    (by decide) (by decide) (by decide) (by decide)
  rw [ht]
  simp only [Option.map_some']
  rw [hlen]
  decide

/-- C10: when the bronze fact table exists but the join query returns zero
rows, `create_silver_table` returns before the drop/create/insert step: the
silver store is unchanged and no error is raised. -/
theorem silver_empty_join_no_op (insertFails : String → Bool) (bronze silver : Database)
    (identifier : String) (fact : DBTable)
    (hfact : dbFind bronze (factTableName identifier) = some fact)
    (hempty : silverQueryRows fact (joinedDims bronze identifier fact) = []) :
    createSilverTable insertFails bronze identifier silver = (silver, none) := by
  unfold createSilverTable
  rw [hfact]
  simp [hempty]

/-- C10 witness: an existing empty fact table leaves a previously persisted
silver table untouched. -/
theorem silver_empty_join_no_op_witness :
    createSilverTable noFailOracle [⟨"E_fact", [("bronze_pk", .string)], []⟩] "E"
      [⟨"E_silver", [("silver_id", .integer)], [[("x", Value.int 1)]]⟩]
    = ([⟨"E_silver", [("silver_id", .integer)], [[("x", Value.int 1)]]⟩], none) :=
  silver_empty_join_no_op noFailOracle _ _ "E" ⟨"E_fact", [("bronze_pk", .string)], []⟩
    (by decide) (by decide)

/-- C2: the code does not skip a resource whose first record has no
natural-key candidate.  `_infer_primary_key` logs the error "skipping table
insertion" and returns `None`, but `insert_json_data` never checks the
result: the table is still created, every record gets
`bronze_pk = f"{file_name}_None"`, and with a single record the row is even
inserted; with two or more records the first record commits before the
duplicated primary key makes the insert fail at the second, leaving a
one-row table — in every case a table for the resource exists,
contradicting the claim. -/
theorem bronze_missing_key_not_skipped :
    inferPrimaryKey [("Foo", Value.str "x")] = none
    ∧ dbFind (insertJsonData none "NoKey.json" "X_dim_NoKey"
        [[("Foo", Value.str "x")]] []) "X_dim_NoKey"
      = some ⟨"X_dim_NoKey",
          [("bronze_pk", .string), ("Foo", .string), ("_source_file", .string)],
          [[("Foo", Value.str "x"), ("bronze_pk", Value.str "NoKey.json_None"),
            ("_source_file", Value.str "NoKey.json")]]⟩
    ∧ (dbFind (insertJsonData none "NoKey.json" "T2"
        [[("Foo", Value.str "x")], [("Foo", Value.str "y")]] []) "T2").map
        (fun t => (t.cols.length, t.rows.map (fun r => rowGet r "bronze_pk")))
      = some (3, [some (Value.str "NoKey.json_None")]) := by
  refine ⟨by decide, by decide, by decide⟩

/-- C4 (amended): column type inference is a pure, deterministic scan for
the first non-null value within the bounded 100-row prefix; a native
integer gives Integer, a native float gives Float, a digit-only string
gives Integer, any other string that parses as a Python float — including
signed integer strings — gives Float, and anything else or an all-null
sample gives String.  The three concrete examples of the claim hold as
stated. -/
theorem type_inference_classification :
    inferFromSample [Value.str "1", Value.str "2", Value.str "abc"] = SqlType.integer
    ∧ inferFromSample [Value.null, Value.null, Value.str "3.5"] = SqlType.float
    ∧ inferFromSample [Value.null, Value.null, Value.null] = SqlType.string
    ∧ (∀ n : Int, inferColumnTypeSilver (Value.int n) = SqlType.integer)
    ∧ (∀ num : Int, ∀ den : Nat,
        inferColumnTypeSilver (Value.float num den) = SqlType.float)
    ∧ (∀ s : String, pyIsDigit s = true →
        inferColumnTypeSilver (Value.str s) = SqlType.integer)
    ∧ (∀ s : String, pyIsDigit s = false → (pyFloatParse s).isSome = true →
        inferColumnTypeSilver (Value.str s) = SqlType.float)
    ∧ (∀ s : String, pyIsDigit s = false → (pyFloatParse s).isSome = false →
        inferColumnTypeSilver (Value.str s) = SqlType.string)
    ∧ (∀ vals : List Value, inferFromSample vals = inferFromSample vals) := by
  refine ⟨by decide, by decide, by decide, fun n => rfl, fun num den => rfl,
    fun s h => ?_, fun s h1 h2 => ?_, fun s h1 h2 => ?_, fun vals => rfl⟩
  · simp [inferColumnTypeSilver, h]
  · simp [inferColumnTypeSilver, h1, h2]
  · simp [inferColumnTypeSilver, h1, h2]

/-- The claim's notion of "a string that parses fully as an integer":
Python `int()` accepts an optional sign before the digits. -/
def intParsesFully (s : String) : Bool := (pyIntParse s).isSome

/-- C4 counterexample: the string `-1` parses fully as an integer, yet
`_infer_column_type` classifies it as Float, because the Integer branch
tests `str.isdigit`, which rejects the sign. -/
theorem type_inference_counterexample :
    intParsesFully "-1" = true
    ∧ inferColumnTypeSilver (Value.str "-1") = SqlType.float
    ∧ SqlType.float ≠ SqlType.integer := by
  refine ⟨by decide, by decide, by decide⟩

/-- C4 witness: the classification rules at concrete inputs. -/
theorem type_inference_witness :
    inferColumnTypeSilver (Value.str "42") = SqlType.integer
    ∧ inferColumnTypeSilver (Value.str "4.5") = SqlType.float
    ∧ inferColumnTypeSilver (Value.str "abc") = SqlType.string :=
  ⟨type_inference_classification.2.2.2.2.2.1 "42" (by decide),
   type_inference_classification.2.2.2.2.2.2.1 "4.5" (by decide) (by decide),
   type_inference_classification.2.2.2.2.2.2.2.1 "abc" (by decide) (by decide)⟩

/-- The `bronze_pk` value carried by a cleaned record. -/
theorem rowGet_cleanRecord_bronzePk (fileName : String) (pkName : Option String) (r : Row) :
    rowGet (cleanRecord fileName pkName r) "bronze_pk"
      = some (Value.str (bronzePkString fileName pkName r)) := by
  unfold cleanRecord
  rw [rowGet_rowSet_ne _ _ _ _ (by decide), rowGet_rowSet_self]

/-- C5 (amended): for a resource of N records homogeneous in keys, each
with a non-null natural-key value and pairwise distinct rendered keys, the
loaded bronze table has N rows with N distinct `bronze_pk` values, each
equal to the concatenation `{resource_name}_{natural_key}`.  Homogeneity
(`missingBindParam ... = false`: every cleaned record carries every bind
parameter of the compiled statement, i.e. every key of the first record)
rules out the bind-parameter error that would abort the insert before any
record is applied. -/
theorem bronze_pk_uniqueness (fileName tableName : String) (data : List Row)
    (db : Database) (pk : String)
    (hne : data ≠ [])
    (hpk : inferPrimaryKey (data.headD []) = some pk)
    (hnn : ∀ r ∈ data, (rowGet (strippedRecord r) pk).getD .null ≠ .null)
    (hhomog : missingBindParam (cleanData fileName (some pk) data) = false)
    (hdist : (data.map (bronzePkString fileName (some pk))).Nodup) :
    ∃ t, dbFind (insertJsonData none fileName tableName data db) tableName = some t
      ∧ t.rows.length = data.length
      ∧ t.rows.map (fun r => rowGet r "bronze_pk")
          = data.map (fun r => some (Value.str (bronzePkString fileName (some pk) r)))
      ∧ (t.rows.map (fun r => rowGet r "bronze_pk")).Nodup := by
  cases data with
  | nil => exact absurd rfl hne
  | cons r0 rest =>
  have hhead : (r0 :: rest).headD ([] : Row) = r0 := rfl
  rw [hhead] at hpk
  have hins : insertJsonData none fileName tableName (r0 :: rest) db
      = replaceTable db tableName (bronzeTableFor none fileName tableName (r0 :: rest)) := rfl
  have hpks : (cleanData fileName (some pk) (r0 :: rest)).map
        (fun r => (rowGet r "bronze_pk").getD .null)
      = (r0 :: rest).map (fun r =>
          Value.str (bronzePkString fileName (some pk) r)) := by
    unfold cleanData
    rw [List.map_map]
    refine List.map_congr_left (fun r _ => ?_)
    simp [Function.comp, rowGet_cleanRecord_bronzePk]
  have hnodup : ((r0 :: rest).map (fun r =>
      Value.str (bronzePkString fileName (some pk) r))).Nodup := by
    have hm := hdist.map (fun a b h => Value.str.inj h)
    rwa [List.map_map] at hm
  have hpref : insertedPrefix none 0 []
        (cleanData fileName (some pk) (r0 :: rest))
      = cleanData fileName (some pk) (r0 :: rest) :=
    insertedPrefix_of_nodup 0 [] _ (by rw [hpks]; exact hnodup)
      (fun r _ => List.not_mem_nil _)
  have hrows : (bronzeTableFor none fileName tableName (r0 :: rest)).rows
      = cleanData fileName (some pk) (r0 :: rest) := by
    unfold bronzeTableFor
    simp only [hhead, hpk, hhomog, Bool.false_eq_true, if_false]
    exact hpref
  have hmap3 : (cleanData fileName (some pk) (r0 :: rest)).map
        (fun r => rowGet r "bronze_pk")
      = (r0 :: rest).map (fun r =>
          some (Value.str (bronzePkString fileName (some pk) r))) := by
    unfold cleanData
    rw [List.map_map]
    refine List.map_congr_left (fun r _ => ?_)
    simp [Function.comp, rowGet_cleanRecord_bronzePk]
  refine ⟨bronzeTableFor none fileName tableName (r0 :: rest), ?_, ?_, ?_, ?_⟩
  · rw [hins]
    exact dbFind_replaceTable_self db tableName _ rfl
  · rw [hrows]
    simp [cleanData]
  · rw [hrows]
    exact hmap3
  · rw [hrows, hmap3]
    have hm := hnodup.map (Option.some_injective Value)
    rwa [List.map_map] at hm

/-- C5 counterexample: two records with non-null but equal natural keys
yield duplicate `bronze_pk` values; the first record commits before the
duplicate aborts the row-by-row insert, so the loaded table has 1 row, not
the 2 the claim asserts. -/
theorem bronze_pk_counterexample :
    rowGet [("ID", Value.str "x")] "ID" = some (Value.str "x")
    ∧ (dbFind (insertJsonData none "F.json" "T"
        [[("ID", Value.str "x")], [("ID", Value.str "x")]] []) "T").map
        (fun t => t.rows.length) = some 1 := by
  refine ⟨by decide, by decide⟩

/-- C5 witness: two distinct natural keys load two rows with the expected
distinct concatenated primary keys. -/
theorem bronze_pk_uniqueness_witness :
    (dbFind (insertJsonData none "F.json" "T"
        [[("ID", Value.str "x")], [("ID", Value.str "y")]] []) "T").map
      (fun t => (t.rows.length, t.rows.map (fun r => rowGet r "bronze_pk")))
    = some (2, [some (Value.str "F.json_x"), some (Value.str "F.json_y")]) := by
  obtain ⟨t, ht, hlen, hmap, _⟩ := bronze_pk_uniqueness "F.json" "T"
    [[("ID", Value.str "x")], [("ID", Value.str "y")]] [] "ID"
    (by decide) (by decide) (by decide) (by decide) (by decide)
  rw [ht]
  simp only [Option.map_some']
  rw [hlen, hmap]
  decide

/-- C7: in the flagship gold transform the comma-decimal target string
`"4,2"` coerces to the float 42/10 (the rational 4.2) after separator
normalization, the empty string coerces to missing, and any string whose
normalized form does not parse as a float coerces to missing rather than
raising. -/
theorem gold_target_coercion :
    coerceZvCell true (Value.str "4,2") = Value.float 42 10
    ∧ floatValQ 42 10 = (21 : ℚ) / 5
    ∧ coerceZvCell true (Value.str "") = Value.null
    ∧ (∀ s : String, pyFloatParse (pyReplace s "," ".") = none →
        coerceZvCell true (Value.str s) = Value.null) := by
  refine ⟨by decide, by norm_num [floatValQ], by decide, fun s h => ?_⟩
  simp [coerceZvCell, strReplaceCommaCell, toNumericCell, h]

/-- C7 witness: the no-error clause at the unparseable input `"a,b"`. -/
theorem gold_target_coercion_witness :
    coerceZvCell true (Value.str "a,b") = Value.null :=
  gold_target_coercion.2.2.2 "a,b" (by decide)

/-- C9 (amended): fetching the same identifier twice performs exactly one
network-equivalent retrieval; the second call makes no network call and
leaves the store unchanged, but returns `None` (a bare `return` on the
cache hit), not the cached location. -/
theorem raw_fetch_idempotent (st : RawState) (tableId : String)
    (h : fileExists st tableId = false) :
    (getTable st tableId).1 = some tableId
    ∧ (getTable st tableId).2.fetchCount = st.fetchCount + 1
    ∧ getTable (getTable st tableId).2 tableId = (none, (getTable st tableId).2) := by
  have hsecond : fileExists ⟨st.dirs ++ [tableId], st.fetchCount + 1⟩ tableId = true := by
    simp [fileExists]
  have h1 : getTable st tableId
      = (some tableId, ⟨st.dirs ++ [tableId], st.fetchCount + 1⟩) := by
    simp [getTable, h]
  have h2 : getTable ⟨st.dirs ++ [tableId], st.fetchCount + 1⟩ tableId
      = (none, ⟨st.dirs ++ [tableId], st.fetchCount + 1⟩) := by
    simp [getTable, hsecond]
  refine ⟨by rw [h1], by rw [h1], ?_⟩
  rw [h1]
  exact h2

/-- C9 counterexample: the second call returns `none`, not the cached
location returned by the first call. -/
theorem raw_fetch_counterexample :
    (getTable (getTable ⟨[], 0⟩ "80072ned").2 "80072ned").1 = none
    ∧ (getTable ⟨[], 0⟩ "80072ned").1 = some "80072ned" := by
  refine ⟨by decide, by decide⟩

/-- C9 witness: the amended behavior from the empty cache. -/
theorem raw_fetch_idempotent_witness :
    (getTable (⟨[], 0⟩ : RawState) "80072ned").1 = some "80072ned"
    ∧ (getTable (⟨[], 0⟩ : RawState) "80072ned").2.fetchCount = 0 + 1
    ∧ getTable (getTable (⟨[], 0⟩ : RawState) "80072ned").2 "80072ned"
        = (none, (getTable (⟨[], 0⟩ : RawState) "80072ned").2) :=
  raw_fetch_idempotent ⟨[], 0⟩ "80072ned" (by decide)

theorem insertJsonData_dbFind_ne (fail : Option Nat) (fileName tableName : String)
    (data : List Row) (db : Database) (n : String) (h : n ≠ tableName) :
    dbFind (insertJsonData fail fileName tableName data db) n = dbFind db n := by
  cases data with
  | nil => rfl
  | cons r rest => exact dbFind_replaceTable_ne db tableName n _ rfl h

theorem ingestFolder_cons (f : String → Option Nat) (identifier : String)
    (r : String × List Row) (rs : List (String × List Row)) (db : Database) :
    ingestFolder f identifier (r :: rs) db
      = ingestFolder f identifier rs
          (insertJsonData (f (bronzeTableName identifier r.1)) r.1
            (bronzeTableName identifier r.1) r.2 db) := rfl

/-- C3 (amended): in the bronze loader a bulk-insert failure is caught and
aborts only that table's load — each table's final content depends only on
its own insert outcome, so flipping the failure of any sibling table (or
the prior database state away from this table) never changes it.  In the
silver resolver, by contrast, the failure propagates uncaught: the run
stops and the remaining identifiers are not processed. -/
theorem insert_failure_containment :
    (∀ (f g : String → Option Nat) (identifier : String)
        (resources : List (String × List Row)) (db1 db2 : Database) (n : String),
      f n = g n → dbFind db1 n = dbFind db2 n →
      dbFind (ingestFolder f identifier resources db1) n
        = dbFind (ingestFolder g identifier resources db2) n)
    ∧ (∀ (f : String → Bool) (bronze : Database) (i : String) (rest : List String)
        (silver db : Database) (e : String),
      createSilverTable f bronze i silver = (db, some e) →
      silverRun f bronze (i :: rest) silver = (db, some e)) := by
  constructor
  · intro f g identifier resources db1 db2 n hfg hdb
    induction resources generalizing db1 db2 with
    | nil => exact hdb
    | cons r rs ih =>
      rw [ingestFolder_cons, ingestFolder_cons]
      refine ih _ _ ?_
      by_cases htn : bronzeTableName identifier r.1 = n
      · cases hd : r.2 with
        | nil =>
          unfold insertJsonData
          exact hdb
        | cons r0 rrest =>
          have hfgt : f (bronzeTableName identifier r.1) = g (bronzeTableName identifier r.1) := by
            rw [htn, hfg]
          rw [show insertJsonData (f (bronzeTableName identifier r.1)) r.1
              (bronzeTableName identifier r.1) (r0 :: rrest) db1
              = replaceTable db1 (bronzeTableName identifier r.1)
                (bronzeTableFor (f (bronzeTableName identifier r.1)) r.1
                  (bronzeTableName identifier r.1) (r0 :: rrest)) from rfl,
            show insertJsonData (g (bronzeTableName identifier r.1)) r.1
              (bronzeTableName identifier r.1) (r0 :: rrest) db2
              = replaceTable db2 (bronzeTableName identifier r.1)
                (bronzeTableFor (g (bronzeTableName identifier r.1)) r.1
                  (bronzeTableName identifier r.1) (r0 :: rrest)) from rfl]
          rw [← htn]
          rw [dbFind_replaceTable_self db1 (bronzeTableName identifier r.1)
              (bronzeTableFor (f (bronzeTableName identifier r.1)) r.1
                (bronzeTableName identifier r.1) (r0 :: rrest)) rfl,
            dbFind_replaceTable_self db2 (bronzeTableName identifier r.1)
              (bronzeTableFor (g (bronzeTableName identifier r.1)) r.1
                (bronzeTableName identifier r.1) (r0 :: rrest)) rfl,
            hfgt]
      · rw [insertJsonData_dbFind_ne _ _ _ _ _ _ (fun hh => htn hh.symm),
          insertJsonData_dbFind_ne _ _ _ _ _ _ (fun hh => htn hh.symm)]
        exact hdb
  · intro f bronze i rest silver db e h
    unfold silverRun
    rw [h]

/-- C3 counterexample: a silver bulk-insert failure for identifier `A`
aborts the whole run — sibling identifier `B` is never processed and its
silver table is missing, while the failure-free run produces it. -/
theorem insert_failure_counterexample :
    (silverRun failASilver exBronzeAB ["A", "B"] []).2.isSome = true
    ∧ dbFind (silverRun failASilver exBronzeAB ["A", "B"] []).1 (silverTableName "B") = none
    ∧ (dbFind (silverRun noFailOracle exBronzeAB ["A", "B"] []).1
        (silverTableName "B")).isSome = true := by
  refine ⟨by decide, by decide, by decide⟩

/-- Oracle: every bronze bulk insert succeeds. -/
def bronzeNoFail : String → Option Nat := fun _ => none

/-- Oracle: only the fact table of identifier `X` fails its bronze insert,
while applying its first record. -/
def failXFact : String → Option Nat := fun t => if t = "X_fact" then some 0 else none

/-- Concrete raw resources for identifier `X`: one fact file, one dimension
file. -/
def exResourcesX : List (String × List Row) :=
  [("TypedDataSet.json", [[("ID", Value.int 1), ("Cat", Value.str "a")]]),
   ("Cat.json", [[("Key", Value.str "a"), ("Title", Value.str "t")]])]

/-- C3 witness: failing the fact table's bronze insert leaves the sibling
dimension table identical to the failure-free run, and a failing silver
identifier makes the run stop with that identifier's result. -/
theorem insert_failure_containment_witness :
    dbFind (ingestFolder failXFact "X" exResourcesX []) "X_dim_Cat"
      = dbFind (ingestFolder bronzeNoFail "X" exResourcesX []) "X_dim_Cat"
    ∧ silverRun failASilver exBronzeAB ["A", "B"] []
        = createSilverTable failASilver exBronzeAB "A" [] := by
  have h : createSilverTable failASilver exBronzeAB "A" []
      = ((createSilverTable failASilver exBronzeAB "A" []).1,
         some ("bulk insert failed for " ++ silverTableName "A")) := by decide
  refine ⟨insert_failure_containment.1 failXFact bronzeNoFail "X" exResourcesX [] []
      "X_dim_Cat" (by decide) rfl, ?_⟩
  exact (insert_failure_containment.2 failASilver exBronzeAB "A" ["B"] [] _ _ h).trans h.symm

/-- C6: in the flagship gold transform, the period code `2023KW02` parses to
the first day of the second quarter of 2023, and every record whose period
code lacks the quarterly marker is excluded from the flattened output
entirely: the output has exactly one row per input row whose period value
is a string containing the marker. -/
theorem gold_quarter_parse_and_filter :
    parseQuarter "2023KW02" = some (2023, 4, 1)
    ∧ (transform80072ned exGoldDf).rows.map (fun r => rowGet r "Perioden_dt")
        = [some (Value.date 2023 4 1)]
    ∧ (∀ df : DataFrame, "Perioden" ∈ df.cols →
        (transform80072ned df).rows.length
          = (df.rows.filter (fun r => periodKeep (rowGet r "Perioden"))).length) := by
  refine ⟨by decide, by decide, fun df h => ?_⟩
  have hP1 : "Perioden" ∈ (goldStep1 df).cols := by rw [goldStep1_cols]; exact h
  unfold transform80072ned
  rw [dropColumns_length, getDummies_length, getDummies_length, goldStep3_length,
    goldStep2_length _ hP1, goldStep1_keep_length]

/-- C6 witness: on a concrete silver frame with one quarterly and one
yearly record, exactly the quarterly record survives. -/
theorem gold_quarter_parse_and_filter_witness :
    (transform80072ned exGoldDf).rows.length
      = (exGoldDf.rows.filter (fun r => periodKeep (rowGet r "Perioden"))).length :=
  gold_quarter_parse_and_filter.2.2 exGoldDf (by decide)

/-- C8: foreign-key discovery tries exact name equality between the
dimension's short name and a fact column first; only if that fails is the
space-insensitive fallback scanned over the fact columns in order; and a
dimension with no match under either rule takes no part in the join, so it
contributes no columns to the silver table. -/
theorem fk_discovery :
    (∀ (suffix : String) (cols : List String), suffix ∈ cols →
        matchForeignKey suffix cols = some suffix)
    ∧ (∀ (suffix : String) (cols : List String), suffix ∉ cols →
        matchForeignKey suffix cols
          = cols.find? (fun c => decide (c = removeSpaces suffix)))
    ∧ (∀ (bronze : Database) (identifier : String) (fact d : DBTable),
        matchForeignKey (shortNameOf identifier d.name) (colNames fact) = none →
        (joinedDims bronze identifier fact).all
          (fun jd => decide (jd.table.name ≠ d.name)) = true) := by
  refine ⟨fun suffix cols h => ?_, fun suffix cols h => ?_,
    fun bronze identifier fact d hnone => ?_⟩
  · unfold matchForeignKey
    rw [if_pos h]
  · unfold matchForeignKey
    rw [if_neg h]
  · rw [List.all_eq_true]
    intro jd hjd
    rw [decide_eq_true_eq]
    intro hname
    obtain ⟨dt, hdt, heq⟩ := List.mem_filterMap.mp hjd
    dsimp only at heq
    cases hfk : matchForeignKey (shortNameOf identifier dt.name) (colNames fact) with
    | none =>
      rw [hfk] at heq
      cases hpk : matchPrimaryKey (colNames dt) <;> rw [hpk] at heq <;> simp at heq
    | some fk =>
      cases hpk : matchPrimaryKey (colNames dt) with
      | none =>
        rw [hfk, hpk] at heq
        simp at heq
      | some pk =>
        rw [hfk, hpk] at heq
        have hjdval : (⟨dt, shortNameOf identifier dt.name, fk, pk⟩ : JoinedDim) = jd := by
          simpa using heq
        have hdtname : dt.name = d.name := by rw [← hjdval] at hname; exact hname
        rw [hdtname] at hfk
        rw [hnone] at hfk
        exact Option.noConfusion hfk

/-- C8 witness: a short name matching a fact column both exactly and after
space removal resolves to the exact match; a short name matching only after
space removal resolves to the normalized match; the unreferenced dimension
`Zebra` takes no part in the join for identifier `J`. -/
theorem fk_discovery_witness :
    matchForeignKey "A B" ["AB", "A B"] = some "A B"
    ∧ matchForeignKey "Regio S" ["RegioS"] = some "RegioS"
    ∧ (joinedDims exBronzeJ "J" exFactJ).all
        (fun jd => decide (jd.table.name ≠ exDimZebra.name)) = true := by
  refine ⟨fk_discovery.1 "A B" _ (by decide),
    (fk_discovery.2.1 "Regio S" _ (by decide)).trans (by decide),
    fk_discovery.2.2 exBronzeJ "J" exFactJ exDimZebra (by decide)⟩

end UWV
